import Mathlib

/-!
Verification of the training-loop orchestrator of deep-symbolic-optimization.

Shallow embedding of `src/dso/dso/train.py` (function `learn`, the `dso`
variant) and of the GP-merge filtering branch of `src/dsr/dsr/train.py`.
Rewards are embedded as rationals; per-row arrays of the Batch are lists.
-/

namespace DSO

/-- A Program as seen by the training loop: its reward `r`, the `success`
flag of its `evaluate` bundle, and its expression/traversal representations.
(`p.r`, `p.evaluate.get "success"`, `repr(p.sympy_expr)`, `repr(p)`.) -/
structure Prog where
  r : ℚ
  success : Bool
  expr : String
  trav : String
  deriving DecidableEq, Repr

/-- Boolean-mask filtering of a per-row array: `arr[keep]` for numpy arrays
and `itertools.compress(arr, keep)` for lists. -/
def maskFilter (keep : List Bool) (xs : List α) : List α :=
  ((keep.zip xs).filter (fun kb => kb.1)).map (fun kb => kb.2)

/-- `np.quantile(xs, q, interpolation="higher")`: sort ascending, take the
element at index `ceil(q * (n - 1))`. -/
def npQuantileHigher (xs : List ℚ) (q : ℚ) : ℚ :=
  (List.insertionSort (· ≤ ·) xs).getD (Rat.ceil (q * ((xs.length : ℚ) - 1))).toNat 0

/-- The per-row arrays of the full batch right before risk-seeking filtering
(`src/dso/dso/train.py` lines 284-293 and the sampled `actions`, `obs`,
`priors`). -/
structure FullBatch where
  r : List ℚ
  l : List ℕ
  s : List String
  invalid : List Bool
  programs : List Prog
  actions : List (List ℕ)
  obs0 : List (List ℕ)
  obs1 : List (List ℕ)
  obs2 : List (List ℕ)
  priors : List (List (List ℚ))
  on_policy : List Bool
  deriving Repr

/-- Result of the risk-seeking filter. -/
structure FilteredBatch where
  keep : List Bool
  r : List ℚ
  l : List ℕ
  s : List String
  invalid : List Bool
  programs : List Prog
  actions : List (List ℕ)
  obs0 : List (List ℕ)
  obs1 : List (List ℕ)
  obs2 : List (List ℕ)
  priors : List (List (List ℚ))
  on_policy : List Bool
  deriving Repr

/-- `src/dso/dso/train.py` lines 360-369: `keep = r >= quantile`, then the
same mask indexes every per-row array (`l`, `s`, `invalid`, `r`, `programs`,
`actions`, the three `obs` channels, `priors`, `on_policy`). -/
def dsoRiskFilter (quantile : ℚ) (b : FullBatch) : FilteredBatch :=
  let keep := b.r.map (fun x => decide (quantile ≤ x))
  { keep := keep
    r := maskFilter keep b.r
    l := maskFilter keep b.l
    s := maskFilter keep b.s
    invalid := maskFilter keep b.invalid
    programs := maskFilter keep b.programs
    actions := maskFilter keep b.actions
    obs0 := maskFilter keep b.obs0
    obs1 := maskFilter keep b.obs1
    obs2 := maskFilter keep b.obs2
    priors := maskFilter keep b.priors
    on_policy := maskFilter keep b.on_policy }

/-- `src/dso/dso/train.py` lines 357-369 for the memory-free path: the
quantile is the empirical "higher" quantile of `r` at probability
`1 - epsilon`, then the filter is applied. -/
def dsoEpochFilter (epsilon : ℚ) (b : FullBatch) : ℚ × FilteredBatch :=
  let quantile := npQuantileHigher b.r (1 - epsilon)
  (quantile, dsoRiskFilter quantile b)

@[simp]
theorem maskFilter_nil_left (xs : List α) : maskFilter [] xs = [] := rfl

@[simp]
theorem maskFilter_nil_right (keep : List Bool) :
    maskFilter keep ([] : List α) = [] := by
  cases keep <;> rfl

@[simp]
theorem maskFilter_cons (k : Bool) (ks : List Bool) (x : α) (xs : List α) :
    maskFilter (k :: ks) (x :: xs) =
      if k then x :: maskFilter ks xs else maskFilter ks xs := by
  cases k <;> simp [maskFilter, List.filter, List.zip]

theorem maskFilter_length_le (keep : List Bool) (xs : List α) :
    (maskFilter keep xs).length ≤ xs.length := by
  induction keep generalizing xs with
  | nil => simp
  | cons k ks ih =>
    cases xs with
    | nil => simp
    | cons x txs =>
      cases k <;> simp only [maskFilter_cons, if_true, if_false,
        List.length_cons, Bool.false_eq_true, ite_false, ite_true]
      · exact Nat.le_succ_of_le (ih txs)
      · exact Nat.succ_le_succ (ih txs)

theorem maskFilter_length_count (keep : List Bool) (xs : List α)
    (h : xs.length = keep.length) :
    (maskFilter keep xs).length = keep.count true := by
  induction keep generalizing xs with
  | nil => simp
  | cons k ks ih =>
    cases xs with
    | nil => simp at h
    | cons x txs =>
      simp only [List.length_cons, Nat.succ_inj] at h
      cases k <;> simp [List.count_cons, ih txs h]

theorem mem_maskFilter_of_map (f : α → Bool) (xs : List α) (y : α)
    (hy : y ∈ maskFilter (xs.map f) xs) : f y = true := by
  induction xs with
  | nil => simp at hy
  | cons x txs ih =>
    cases hf : f x <;> simp [hf] at hy
    · exact ih hy
    · rcases hy with rfl | hy
      · exact hf
      · exact ih hy

/-- C1: with epsilon set and below 1, the risk-seeking filter computes one
boolean mask (`r >= quantile`) and applies that same mask to every per-row
array (rewards, lengths, string keys, invalid flags, programs, actions, all
three observation channels, priors, on-policy flags); consequently the
filtered row count is at most the full row count, every output array has
that same filtered row count, and every retained reward is at least the
quantile. -/
theorem riskFilter_single_mask (epsilon : ℚ) (b : FullBatch)
    (hl : b.l.length = b.r.length) (hs : b.s.length = b.r.length)
    (hi : b.invalid.length = b.r.length) (hp : b.programs.length = b.r.length)
    (ha : b.actions.length = b.r.length) (h0 : b.obs0.length = b.r.length)
    (h1 : b.obs1.length = b.r.length) (h2 : b.obs2.length = b.r.length)
    (hq : b.priors.length = b.r.length) (ho : b.on_policy.length = b.r.length) :
    (dsoEpochFilter epsilon b).2.keep =
      b.r.map (fun x => decide ((dsoEpochFilter epsilon b).1 ≤ x)) ∧
    ((dsoEpochFilter epsilon b).2.r =
        maskFilter (dsoEpochFilter epsilon b).2.keep b.r ∧
      (dsoEpochFilter epsilon b).2.l =
        maskFilter (dsoEpochFilter epsilon b).2.keep b.l ∧
      (dsoEpochFilter epsilon b).2.s =
        maskFilter (dsoEpochFilter epsilon b).2.keep b.s ∧
      (dsoEpochFilter epsilon b).2.invalid =
        maskFilter (dsoEpochFilter epsilon b).2.keep b.invalid ∧
      (dsoEpochFilter epsilon b).2.programs =
        maskFilter (dsoEpochFilter epsilon b).2.keep b.programs ∧
      (dsoEpochFilter epsilon b).2.actions =
        maskFilter (dsoEpochFilter epsilon b).2.keep b.actions ∧
      (dsoEpochFilter epsilon b).2.obs0 =
        maskFilter (dsoEpochFilter epsilon b).2.keep b.obs0 ∧
      (dsoEpochFilter epsilon b).2.obs1 =
        maskFilter (dsoEpochFilter epsilon b).2.keep b.obs1 ∧
      (dsoEpochFilter epsilon b).2.obs2 =
        maskFilter (dsoEpochFilter epsilon b).2.keep b.obs2 ∧
      (dsoEpochFilter epsilon b).2.priors =
        maskFilter (dsoEpochFilter epsilon b).2.keep b.priors ∧
      (dsoEpochFilter epsilon b).2.on_policy =
        maskFilter (dsoEpochFilter epsilon b).2.keep b.on_policy) ∧
    (dsoEpochFilter epsilon b).2.r.length ≤ b.r.length ∧
    ((dsoEpochFilter epsilon b).2.l.length = (dsoEpochFilter epsilon b).2.r.length ∧
      (dsoEpochFilter epsilon b).2.s.length = (dsoEpochFilter epsilon b).2.r.length ∧
      (dsoEpochFilter epsilon b).2.invalid.length = (dsoEpochFilter epsilon b).2.r.length ∧
      (dsoEpochFilter epsilon b).2.programs.length = (dsoEpochFilter epsilon b).2.r.length ∧
      (dsoEpochFilter epsilon b).2.actions.length = (dsoEpochFilter epsilon b).2.r.length ∧
      (dsoEpochFilter epsilon b).2.obs0.length = (dsoEpochFilter epsilon b).2.r.length ∧
      (dsoEpochFilter epsilon b).2.obs1.length = (dsoEpochFilter epsilon b).2.r.length ∧
      (dsoEpochFilter epsilon b).2.obs2.length = (dsoEpochFilter epsilon b).2.r.length ∧
      (dsoEpochFilter epsilon b).2.priors.length = (dsoEpochFilter epsilon b).2.r.length ∧
      (dsoEpochFilter epsilon b).2.on_policy.length = (dsoEpochFilter epsilon b).2.r.length) ∧
    ∀ x ∈ (dsoEpochFilter epsilon b).2.r, (dsoEpochFilter epsilon b).1 ≤ x := by
  set q := npQuantileHigher b.r (1 - epsilon) with hqdef
  have hkeep : (dsoEpochFilter epsilon b).2.keep =
      b.r.map (fun x => decide (q ≤ x)) := rfl
  have hcnt : ∀ (β : Type) (xs : List β), xs.length = b.r.length →
      (maskFilter (dsoEpochFilter epsilon b).2.keep xs).length =
        (b.r.map (fun x => decide (q ≤ x))).count true := by
    intro β xs hx
    rw [hkeep]
    exact maskFilter_length_count _ xs (by simpa using hx)
  refine ⟨rfl, ⟨rfl, rfl, rfl, rfl, rfl, rfl, rfl, rfl, rfl, rfl, rfl⟩,
    maskFilter_length_le _ _, ?_, ?_⟩
  · have hr := hcnt ℚ b.r rfl
    exact ⟨(hcnt ℕ b.l hl).trans hr.symm, (hcnt String b.s hs).trans hr.symm,
      (hcnt Bool b.invalid hi).trans hr.symm,
      (hcnt Prog b.programs hp).trans hr.symm,
      (hcnt (List ℕ) b.actions ha).trans hr.symm,
      (hcnt (List ℕ) b.obs0 h0).trans hr.symm,
      (hcnt (List ℕ) b.obs1 h1).trans hr.symm,
      (hcnt (List ℕ) b.obs2 h2).trans hr.symm,
      (hcnt (List (List ℚ)) b.priors hq).trans hr.symm,
      (hcnt Bool b.on_policy ho).trans hr.symm⟩
  · intro x hx
    exact of_decide_eq_true
      (mem_maskFilter_of_map (fun x => decide (q ≤ x)) b.r x hx)

/-- Witness for C1 at a concrete batch. -/
theorem riskFilter_single_mask_witness :
    ([3, 4] : List ℕ).length = ([1/10, (9:ℚ)/10] : List ℚ).length ∧
    ((dsoEpochFilter (1/2)
      { r := [1/10, 9/10], l := [3, 4], s := ["a", "b"],
        invalid := [false, true],
        programs := [⟨1/10, false, "a", "a"⟩, ⟨9/10, false, "b", "b"⟩],
        actions := [[0], [1]], obs0 := [[0], [1]], obs1 := [[0], [1]],
        obs2 := [[0], [1]], priors := [[[1]], [[1]]],
        on_policy := [true, true] }).2.r.length ≤
      ([1/10, (9:ℚ)/10] : List ℚ).length ∧
    (dsoEpochFilter (1/2)
      { r := [1/10, 9/10], l := [3, 4], s := ["a", "b"],
        invalid := [false, true],
        programs := [⟨1/10, false, "a", "a"⟩, ⟨9/10, false, "b", "b"⟩],
        actions := [[0], [1]], obs0 := [[0], [1]], obs1 := [[0], [1]],
        obs2 := [[0], [1]], priors := [[[1]], [[1]]],
        on_policy := [true, true] }).2.l.length =
      (dsoEpochFilter (1/2)
      { r := [1/10, 9/10], l := [3, 4], s := ["a", "b"],
        invalid := [false, true],
        programs := [⟨1/10, false, "a", "a"⟩, ⟨9/10, false, "b", "b"⟩],
        actions := [[0], [1]], obs0 := [[0], [1]], obs1 := [[0], [1]],
        obs2 := [[0], [1]], priors := [[[1]], [[1]]],
        on_policy := [true, true] }).2.r.length) :=
  ⟨rfl,
    (riskFilter_single_mask (1/2) _ rfl rfl rfl rfl rfl rfl rfl rfl rfl
      rfl).2.2.1,
    (riskFilter_single_mask (1/2) _ rfl rfl rfl rfl rfl rfl rfl rfl rfl
      rfl).2.2.2.1.1⟩

/-- C7: with memory off, epsilon = 1/2 and full-batch rewards
[0.1, 0.9, 0.4, 0.7], the "higher"-interpolation quantile at probability
1 - epsilon = 1/2 is 0.7, the keep mask is [false, true, false, true], and
exactly the rewards 0.9 and 0.7 are retained. -/
theorem endToEnd_quantile_scenario :
    (dsoEpochFilter (1/2)
      { r := [1/10, 9/10, 4/10, 7/10], l := [1, 2, 3, 4],
        s := ["a", "b", "c", "d"], invalid := [false, false, false, false],
        programs := [⟨1/10, false, "a", "a"⟩, ⟨9/10, false, "b", "b"⟩,
          ⟨4/10, false, "c", "c"⟩, ⟨7/10, false, "d", "d"⟩],
        actions := [[0], [1], [2], [3]], obs0 := [[0], [1], [2], [3]],
        obs1 := [[0], [1], [2], [3]], obs2 := [[0], [1], [2], [3]],
        priors := [[[1]], [[1]], [[1]], [[1]]],
        on_policy := [true, true, true, true] }).1 = 7/10 ∧
    (dsoEpochFilter (1/2)
      { r := [1/10, 9/10, 4/10, 7/10], l := [1, 2, 3, 4],
        s := ["a", "b", "c", "d"], invalid := [false, false, false, false],
        programs := [⟨1/10, false, "a", "a"⟩, ⟨9/10, false, "b", "b"⟩,
          ⟨4/10, false, "c", "c"⟩, ⟨7/10, false, "d", "d"⟩],
        actions := [[0], [1], [2], [3]], obs0 := [[0], [1], [2], [3]],
        obs1 := [[0], [1], [2], [3]], obs2 := [[0], [1], [2], [3]],
        priors := [[[1]], [[1]], [[1]], [[1]]],
        on_policy := [true, true, true, true] }).2.keep =
      [false, true, false, true] ∧
    (dsoEpochFilter (1/2)
      { r := [1/10, 9/10, 4/10, 7/10], l := [1, 2, 3, 4],
        s := ["a", "b", "c", "d"], invalid := [false, false, false, false],
        programs := [⟨1/10, false, "a", "a"⟩, ⟨9/10, false, "b", "b"⟩,
          ⟨4/10, false, "c", "c"⟩, ⟨7/10, false, "d", "d"⟩],
        actions := [[0], [1], [2], [3]], obs0 := [[0], [1], [2], [3]],
        obs1 := [[0], [1], [2], [3]], obs2 := [[0], [1], [2], [3]],
        priors := [[[1]], [[1]], [[1]], [[1]]],
        on_policy := [true, true, true, true] }).2.r = [9/10, 7/10] := by
  refine ⟨?_, ?_, ?_⟩ <;>
    norm_num [dsoEpochFilter, dsoRiskFilter, npQuantileHigher, List.insertionSort,
      List.orderedInsert, Rat.ceil, List.getD, Int.toNat, maskFilter, List.zip,
      List.filter, List.zipWith]

/-- The four baseline modes of `learn` (string-keyed in the source). -/
inductive BaselineMode
  | ewma_R | R_e | ewma_R_e | combined
  deriving DecidableEq, Repr

/-- `np.mean` (the mean of an empty array is left at 0 here; every use in the
claims is on a nonempty array). -/
def npMean (xs : List ℚ) : ℚ := xs.sum / xs.length

/-- `np.min` on a nonempty array. -/
def npMin : List ℚ → ℚ
  | [] => 0
  | x :: xs => xs.foldl min x

/-- `np.clip(x, -1e6, 1e6)` applied elementwise to reward vectors
(`src/dso/dso/train.py` lines 372-373). -/
def clipR (x : ℚ) : ℚ := max (-1000000) (min 1000000 x)

/-- Python exceptions the `learn` loop can raise on the paths the claims
cover: reading a never-assigned variable (NameError) and comparing an int
with None (TypeError). -/
inductive RunError
  | nameError | typeError
  deriving DecidableEq, Repr

/-- Reading the Python variable `quantile`, which is assigned only when
risk-seeking ran (`epsilon is not None and epsilon < 1.0`); reading it
unassigned raises NameError. -/
def readQuantile : Option ℚ → Except RunError ℚ
  | some q => Except.ok q
  | none => Except.error RunError.nameError

/-- `src/dso/dso/train.py` lines 377-388: the baseline dispatch. Takes the
EWMA state (`None` until first use when `b_jumpstart`), the `quantile`
variable (unassigned when risk-seeking is off) and the clipped retained
rewards `r_train`; returns `(b_train, new ewma)`. -/
def computeBaseline (mode : BaselineMode) (alpha : ℚ) (ewma : Option ℚ)
    (quantile : Option ℚ) (r_train : List ℚ) : Except RunError (ℚ × ℚ) :=
  match mode with
  | .ewma_R =>
      let e := match ewma with
        | none => npMean r_train
        | some w => alpha * npMean r_train + (1 - alpha) * w
      Except.ok (e, e)
  | .R_e => do
      let q ← readQuantile quantile
      Except.ok (q, -1)
  | .ewma_R_e =>
      match ewma with
      | none =>
          let e := npMin r_train
          Except.ok (e, e)
      | some w => do
          let q ← readQuantile quantile
          let e := alpha * q + (1 - alpha) * w
          Except.ok (e, e)
  | .combined => do
      let q ← readQuantile quantile
      let e := match ewma with
        | none => npMean r_train - q
        | some w => alpha * (npMean r_train - q) + (1 - alpha) * w
      Except.ok (q + e, e)

/-- C5: whatever EWMA state is carried from previous epochs, mode `R_e`
yields `b_train = quantile`, and mode `ewma_R` with `alpha = 1` yields
`b_train = mean` of the clipped retained rewards. -/
theorem baseline_Re_and_ewmaR (alpha : ℚ) (ewma : Option ℚ) (q : ℚ)
    (quantile : Option ℚ) (raw : List ℚ) :
    computeBaseline BaselineMode.R_e alpha ewma (some q) (raw.map clipR) =
      Except.ok (q, -1) ∧
    computeBaseline BaselineMode.ewma_R 1 ewma quantile (raw.map clipR) =
      Except.ok (npMean (raw.map clipR), npMean (raw.map clipR)) := by
  constructor
  · rfl
  · cases ewma with
    | none => rfl
    | some w => simp [computeBaseline]

/-- Counterexample to C9 as stated: with risk-seeking disabled (`quantile`
unassigned), mode `ewma_R_e` (which is not `ewma_R`) and the EWMA state
still `None` (`b_jumpstart`), the first epoch's baseline computation does
NOT raise a NameError: it returns `b_train = min(r_train)`. -/
theorem baseline_ewmaRe_first_epoch_ok :
    computeBaseline BaselineMode.ewma_R_e (1/10) none none [1/2] =
      Except.ok (1/2, 1/2) := rfl

/-- C9 (amended): with risk-seeking disabled the `quantile` variable is
never assigned, and the baseline computation raises a NameError exactly for
modes `R_e` and `combined` (at every epoch, so in particular the first), and
for mode `ewma_R_e` exactly when the EWMA state is not `None` — that is,
from the first epoch when `b_jumpstart` is off (the dso default initializes
the state to 0.0), and only from the second epoch otherwise; mode `ewma_R`
never reads `quantile` and never raises. -/
theorem baseline_nameError_iff (mode : BaselineMode) (alpha : ℚ)
    (ewma : Option ℚ) (r_train : List ℚ) :
    computeBaseline mode alpha ewma none r_train =
        Except.error RunError.nameError ↔
      (mode = BaselineMode.R_e ∨ mode = BaselineMode.combined ∨
        (mode = BaselineMode.ewma_R_e ∧ ewma ≠ none)) := by
  cases mode <;> cases ewma <;>
    simp [computeBaseline, readQuantile, Bind.bind, Except.bind]

/-- A program as the memory-augmented quantile estimation sees it: its
canonical string key `p.str` and its reward `p.r`. -/
structure KProg where
  str : String
  r : ℚ
  deriving DecidableEq, Repr

/-- Accumulating pass of the weighted quantile: walk the value-sorted pairs,
return the first value whose cumulative weight reaches `q` (the last value
if none does). -/
def wqGo (q : ℚ) : ℚ → List (ℚ × ℚ) → ℚ
  | _, [] => 0
  | _, [(v, _)] => v
  | acc, (v, w) :: rest => if q ≤ acc + w then v else wqGo q (acc + w) rest

/-- Modelled from the spec: `weighted_quantile` lives in `dso/utils.py`,
which is not under `src/`; §4.3 specifies it as weighted order statistics —
sort by value and take the smallest prefix whose cumulative weight reaches
the target probability `q`. -/
def weightedQuantile (values weights : List ℚ) (q : ℚ) : ℚ :=
  wqGo q 0 (List.insertionSort (fun a b => a.1 ≤ b.1) (values.zip weights))

/-- Output of the memory-augmented quantile step. -/
structure MemQuantOut where
  combined_r : List ℚ
  combined_w : List ℚ
  warning : Bool
  quantile : ℚ
  deriving Repr

/-- `src/dso/dso/train.py` lines 328-355: memory-augmented quantile. The
batch programs whose keys are absent from the memory queue are the unique
samples; their rewards are appended to the memory rewards; the combined
weights either split the leftover mass `(1 - sum(memory_w))` evenly over the
`N` unique samples, or, when `N = 0`, renormalize the memory weights alone
(printing a warning); the weighted quantile is taken at `1 - epsilon`.
The memory queue contents (`unique_items`, `get_rewards()`,
`compute_probs()`) enter as data. -/
def memoryQuantile (epsilon : ℚ) (programs : List KProg)
    (memory_items : List String) (memory_r memory_w : List ℚ) : MemQuantOut :=
  let unique_programs := programs.filter (fun p => !(p.str ∈ memory_items))
  let N := unique_programs.length
  let sample_r := unique_programs.map (fun p => p.r)
  let combined_r := memory_r ++ sample_r
  if N = 0 then
    let combined_w := memory_w.map (fun w => w / memory_w.sum)
    { combined_r := combined_r, combined_w := combined_w, warning := true,
      quantile := weightedQuantile combined_r combined_w (1 - epsilon) }
  else
    let sample_w := List.replicate N ((1 - memory_w.sum) / N)
    let combined_w := memory_w ++ sample_w
    { combined_r := combined_r, combined_w := combined_w, warning := false,
      quantile := weightedQuantile combined_r combined_w (1 - epsilon) }

theorem sum_map_div (xs : List ℚ) (c : ℚ) :
    (xs.map (fun w => w / c)).sum = xs.sum / c := by
  induction xs with
  | nil => simp
  | cons x t ih => simp [ih, add_div]

/-- C3: in memory-augmented quantile estimation with `N` unique batch
programs, the combined weight vector is the memory weights followed by
`(1 - sum(memory_w))/N` repeated `N` times when `N > 0` (no warning);
when `N = 0` a warning is printed and the memory weights are renormalized by
their sum (so they alone sum to 1 whenever their sum is nonzero); in both
cases the weighted quantile is taken at probability `1 - epsilon` over the
memory rewards concatenated with the unique-sample rewards. -/
theorem memoryQuantile_weights (epsilon : ℚ) (programs : List KProg)
    (memory_items : List String) (memory_r memory_w : List ℚ) :
    ((programs.filter (fun p => !(p.str ∈ memory_items))).length ≠ 0 →
      (memoryQuantile epsilon programs memory_items memory_r memory_w).combined_w =
          memory_w ++ List.replicate
            (programs.filter (fun p => !(p.str ∈ memory_items))).length
            ((1 - memory_w.sum) /
              (programs.filter (fun p => !(p.str ∈ memory_items))).length) ∧
        (memoryQuantile epsilon programs memory_items memory_r memory_w).warning
          = false) ∧
    ((programs.filter (fun p => !(p.str ∈ memory_items))).length = 0 →
      (memoryQuantile epsilon programs memory_items memory_r memory_w).warning
          = true ∧
        (memoryQuantile epsilon programs memory_items memory_r memory_w).combined_w
          = memory_w.map (fun w => w / memory_w.sum) ∧
        (memory_w.sum ≠ 0 →
          (memoryQuantile epsilon programs memory_items memory_r
            memory_w).combined_w.sum = 1)) ∧
    (memoryQuantile epsilon programs memory_items memory_r memory_w).quantile =
      weightedQuantile
        (memory_r ++ (programs.filter (fun p => !(p.str ∈ memory_items))).map
          (fun p => p.r))
        (memoryQuantile epsilon programs memory_items memory_r
          memory_w).combined_w
        (1 - epsilon) := by
  refine ⟨fun h => ?_, fun h => ?_, ?_⟩
  · simp [memoryQuantile, h]
  · exact ⟨by simp [memoryQuantile, h], by simp [memoryQuantile, h],
      fun hs => by simp [memoryQuantile, h, sum_map_div, div_self hs]⟩
  · by_cases h : (programs.filter (fun p => !(p.str ∈ memory_items))).length = 0
      <;> simp [memoryQuantile, h]

/-- Witness for C3 at a concrete batch with one unique sample. -/
theorem memoryQuantile_weights_witness :
    ([KProg.mk "a" (1/2)].filter (fun p => !(p.str ∈ ["b"]))).length ≠ 0 ∧
    ((memoryQuantile (1/2) [KProg.mk "a" (1/2)] ["b"] [3/4] [1/3]).combined_w =
        [1/3] ++ List.replicate
          ([KProg.mk "a" (1/2)].filter (fun p => !(p.str ∈ ["b"]))).length
          ((1 - ([(1:ℚ)/3]).sum) /
            ([KProg.mk "a" (1/2)].filter (fun p => !(p.str ∈ ["b"]))).length) ∧
      (memoryQuantile (1/2) [KProg.mk "a" (1/2)] ["b"] [3/4] [1/3]).warning =
        false) :=
  ⟨by decide, (memoryQuantile_weights (1/2) [KProg.mk "a" (1/2)] ["b"]
    [3/4] [1/3]).1 (by decide)⟩

/-!
The `dsr` variant (`src/dsr/dsr/train.py` lines 457-499): the filter mask is
computed on `base_r`, and when evolutionary (GP) candidates were merged into
the batch but are configured not to be fed back to the sampler
(`run_gp_meld and not gp_controller.return_gp_obs`), the mask is truncated
at `batch_size` for the training-side quantities.
-/

/-- Per-row arrays of the dsr full batch (on-policy rows first, then the GP
rows appended by the `run_gp_meld` merge). -/
structure DsrBatch where
  base_r : List ℚ
  r : List ℚ
  programs : List Prog
  actions : List (List ℕ)
  obs0 : List (List ℕ)
  obs1 : List (List ℕ)
  obs2 : List (List ℕ)
  priors : List (List (List ℚ))
  on_policy : List Bool
  deriving Repr

/-- `keep[batch_size:] = False`: every mask entry at index `>= n` is forced
to `False`. -/
def zeroFrom (n : ℕ) (keep : List Bool) : List Bool :=
  keep.take n ++ List.replicate (keep.length - n) false

/-- Output of the dsr risk filter: `r`/`programs` are what the loop keeps
for best-candidate tracking and passes to `priority_queue.push_best` /
`memory_queue.push_batch` (`src/dsr/dsr/train.py` lines 529-545, 551-557),
while `r_train`/`p_train` and the arrays `actions`..`on_policy` (from which
the training `Batch` is built, lines 521-526) are the training-step side.
`keep_final` is the Python `keep` array after any in-place truncation. -/
structure DsrFiltered where
  keep : List Bool
  keep_final : List Bool
  base_r : List ℚ
  r : List ℚ
  programs : List Prog
  r_train : List ℚ
  p_train : List Prog
  actions : List (List ℕ)
  obs0 : List (List ℕ)
  obs1 : List (List ℕ)
  obs2 : List (List ℕ)
  priors : List (List (List ℚ))
  on_policy : List Bool
  deriving Repr

/-- `src/dsr/dsr/train.py` lines 457-499. `keep = base_r >= quantile`; when
`run_gp_meld` and the GP rows are not returned to the controller, `_r`/`_p`
are saved under the full mask, `keep[batch_size:]` is zeroed in place, the
training quantities use the truncated mask, and `r`/`programs` are restored
from `_r`/`_p`; otherwise one mask serves both. The action/obs/prior/
on-policy arrays are always indexed by the (possibly truncated) `keep`. -/
def dsrGpFilter (batch_size : ℕ) (run_gp_meld return_gp_obs : Bool)
    (quantile : ℚ) (b : DsrBatch) : DsrFiltered :=
  let keep := b.base_r.map (fun x => decide (quantile ≤ x))
  if run_gp_meld && !return_gp_obs then
    let r0 := maskFilter keep b.r
    let p0 := maskFilter keep b.programs
    let keep2 := zeroFrom batch_size keep
    { keep := keep
      keep_final := keep2
      base_r := maskFilter keep b.base_r
      r := r0
      programs := p0
      r_train := maskFilter keep2 b.r
      p_train := maskFilter keep2 b.programs
      actions := maskFilter keep2 b.actions
      obs0 := maskFilter keep2 b.obs0
      obs1 := maskFilter keep2 b.obs1
      obs2 := maskFilter keep2 b.obs2
      priors := maskFilter keep2 b.priors
      on_policy := maskFilter keep2 b.on_policy }
  else
    { keep := keep
      keep_final := keep
      base_r := maskFilter keep b.base_r
      r := maskFilter keep b.r
      programs := maskFilter keep b.programs
      r_train := maskFilter keep b.r
      p_train := maskFilter keep b.programs
      actions := maskFilter keep b.actions
      obs0 := maskFilter keep b.obs0
      obs1 := maskFilter keep b.obs1
      obs2 := maskFilter keep b.obs2
      priors := maskFilter keep b.priors
      on_policy := maskFilter keep b.on_policy }

theorem maskFilter_append (k1 k2 : List Bool) (x1 x2 : List α)
    (h : k1.length = x1.length) :
    maskFilter (k1 ++ k2) (x1 ++ x2) = maskFilter k1 x1 ++ maskFilter k2 x2 := by
  induction k1 generalizing x1 with
  | nil =>
    cases x1 with
    | nil => simp
    | cons _ _ => simp at h
  | cons k ks ih =>
    cases x1 with
    | nil => simp at h
    | cons x xs =>
      simp only [List.length_cons, Nat.succ_inj] at h
      cases k <;> simp [ih xs h]

theorem maskFilter_replicate_false (n : ℕ) (xs : List α) :
    maskFilter (List.replicate n false) xs = [] := by
  induction n generalizing xs with
  | zero => simp
  | succ m ih =>
    cases xs with
    | nil => simp
    | cons x t => simpa [List.replicate_succ] using ih t

theorem maskFilter_zeroFrom (n : ℕ) (keep : List Bool) (xs : List α)
    (h : keep.length = xs.length) :
    maskFilter (zeroFrom n keep) xs =
      maskFilter (keep.take n) (xs.take n) := by
  unfold zeroFrom
  calc maskFilter (keep.take n ++ List.replicate (keep.length - n) false) xs
      = maskFilter (keep.take n ++ List.replicate (keep.length - n) false)
          (xs.take n ++ xs.drop n) := by rw [List.take_append_drop]
    _ = maskFilter (keep.take n) (xs.take n) ++
          maskFilter (List.replicate (keep.length - n) false) (xs.drop n) := by
        apply maskFilter_append
        simp [h]
    _ = maskFilter (keep.take n) (xs.take n) := by
        rw [maskFilter_replicate_false, List.append_nil]

/-- C6: when GP candidates were merged and are configured not to feed back
to the sampler, the second mask is the reward-filter mask with every
position at index `>= batch_size` forced to `False`; it selects the rows
used for the training step (`r_train`, `p_train` and the Batch arrays), so
no evolutionary row enters training; the plain reward-filtered set,
retained evolutionary rows included, is kept as `programs`/`r` (the set the
loop uses for best-candidate tracking and the priority/memory queue
pushes), and equals the training rows followed by the retained evolutionary
rows. -/
theorem dsrGpFilter_second_mask (batch_size : ℕ) (quantile : ℚ)
    (b : DsrBatch)
    (hp : b.programs.length = b.base_r.length) :
    (dsrGpFilter batch_size true false quantile b).keep_final =
      zeroFrom batch_size
        (b.base_r.map (fun x => decide (quantile ≤ x))) ∧
    ((dsrGpFilter batch_size true false quantile b).r_train =
        maskFilter (dsrGpFilter batch_size true false quantile b).keep_final
          b.r ∧
      (dsrGpFilter batch_size true false quantile b).p_train =
        maskFilter (dsrGpFilter batch_size true false quantile b).keep_final
          b.programs ∧
      (dsrGpFilter batch_size true false quantile b).actions =
        maskFilter (dsrGpFilter batch_size true false quantile b).keep_final
          b.actions ∧
      (dsrGpFilter batch_size true false quantile b).obs0 =
        maskFilter (dsrGpFilter batch_size true false quantile b).keep_final
          b.obs0 ∧
      (dsrGpFilter batch_size true false quantile b).obs1 =
        maskFilter (dsrGpFilter batch_size true false quantile b).keep_final
          b.obs1 ∧
      (dsrGpFilter batch_size true false quantile b).obs2 =
        maskFilter (dsrGpFilter batch_size true false quantile b).keep_final
          b.obs2 ∧
      (dsrGpFilter batch_size true false quantile b).priors =
        maskFilter (dsrGpFilter batch_size true false quantile b).keep_final
          b.priors ∧
      (dsrGpFilter batch_size true false quantile b).on_policy =
        maskFilter (dsrGpFilter batch_size true false quantile b).keep_final
          b.on_policy) ∧
    (dsrGpFilter batch_size true false quantile b).p_train =
      maskFilter
        ((b.base_r.map (fun x => decide (quantile ≤ x))).take batch_size)
        (b.programs.take batch_size) ∧
    ((dsrGpFilter batch_size true false quantile b).r =
        maskFilter (b.base_r.map (fun x => decide (quantile ≤ x))) b.r ∧
      (dsrGpFilter batch_size true false quantile b).programs =
        maskFilter (b.base_r.map (fun x => decide (quantile ≤ x)))
          b.programs) ∧
    (dsrGpFilter batch_size true false quantile b).programs =
      (dsrGpFilter batch_size true false quantile b).p_train ++
        maskFilter
          ((b.base_r.map (fun x => decide (quantile ≤ x))).drop batch_size)
          (b.programs.drop batch_size) := by
  have hkeep : (b.base_r.map (fun x => decide (quantile ≤ x))).length =
      b.programs.length := by simp [hp]
  refine ⟨rfl, ⟨rfl, rfl, rfl, rfl, rfl, rfl, rfl, rfl⟩, ?_, ⟨rfl, rfl⟩, ?_⟩
  · show maskFilter (zeroFrom batch_size _) _ = _
    exact maskFilter_zeroFrom batch_size _ b.programs hkeep
  · show maskFilter _ b.programs =
      maskFilter (zeroFrom batch_size _) b.programs ++ _
    rw [maskFilter_zeroFrom batch_size _ b.programs hkeep]
    conv_lhs =>
      rw [← List.take_append_drop batch_size
        (b.base_r.map (fun x => decide (quantile ≤ x))),
        ← List.take_append_drop batch_size b.programs]
    exact maskFilter_append _ _ _ _ (by simp [hkeep])

/-- Witness for C6 at a concrete two-row batch (one on-policy row, one GP
row, both above the quantile). -/
theorem dsrGpFilter_second_mask_witness :
    ([(⟨1/2, false, "a", "a"⟩ : Prog), ⟨3/4, false, "b", "b"⟩]).length =
      ([(1:ℚ), 2] : List ℚ).length ∧
    (dsrGpFilter 1 true false (1/4)
      { base_r := [1, 2], r := [1/2, 3/4],
        programs := [⟨1/2, false, "a", "a"⟩, ⟨3/4, false, "b", "b"⟩],
        actions := [[0], [1]], obs0 := [[0], [1]], obs1 := [[0], [1]],
        obs2 := [[0], [1]], priors := [[[1]], [[1]]],
        on_policy := [true, false] }).programs =
      (dsrGpFilter 1 true false (1/4)
      { base_r := [1, 2], r := [1/2, 3/4],
        programs := [⟨1/2, false, "a", "a"⟩, ⟨3/4, false, "b", "b"⟩],
        actions := [[0], [1]], obs0 := [[0], [1]], obs1 := [[0], [1]],
        obs2 := [[0], [1]], priors := [[[1]], [[1]]],
        on_policy := [true, false] }).p_train ++
        maskFilter
          ((([(1:ℚ), 2] : List ℚ).map (fun x => decide ((1:ℚ)/4 ≤ x))).drop 1)
          ([(⟨1/2, false, "a", "a"⟩ : Prog), ⟨3/4, false, "b", "b"⟩].drop 1) :=
  ⟨rfl, (dsrGpFilter_second_mask 1 (1/4)
    { base_r := [1, 2], r := [1/2, 3/4],
      programs := [⟨1/2, false, "a", "a"⟩, ⟨3/4, false, "b", "b"⟩],
      actions := [[0], [1]], obs0 := [[0], [1]], obs1 := [[0], [1]],
      obs2 := [[0], [1]], priors := [[[1]], [[1]]],
      on_policy := [true, false] } rfl).2.2.2.2⟩

/-!
Serial vs. parallel evaluation (`src/dso/dso/train.py` lines 262-281).
`dso/program.py` is not under `src/`, so the Program cache and `from_tokens`
are modelled from the spec (§3 Candidate Cache, §4.1, §4.2, §5): the cache
maps a canonical key to the evaluation record; a cache hit returns the
canonical cached object (bumping its resample count) without recomputation;
constant optimization plus reward computation is a pure deterministic
function of the key, here an explicit parameter `evalP`.
-/

/-- Canonical expression key (the token sequence / its string repr). -/
abbrev Key := List ℕ

/-- Modelled from the spec: a Program's evaluation state in the cache —
optionally fitted constants, optionally computed reward, resample count. -/
structure PState where
  constants : Option (List ℚ)
  r : Option ℚ
  count : ℕ
  deriving DecidableEq, Repr

/-- Modelled from the spec: the process-wide Program cache. -/
def Cache := Key → Option PState

/-- Point update of the cache. -/
def Cache.update (c : Cache) (k : Key) (v : PState) : Cache :=
  fun k2 => if k2 = k then some v else c k2

/-- Modelled from the spec: `from_tokens` shared skeleton — on a cache hit
return the canonical cached Program, incrementing its count; on a miss
insert the freshly constructed record `create a`. -/
def cacheStep (create : Key → PState) (c : Cache) (a : Key) : Cache :=
  match c a with
  | some st => c.update a { st with count := st.count + 1 }
  | none => c.update a (create a)

/-- `from_tokens(a, optimize=True)`: a cache miss constructs the Program
and immediately optimizes constants and computes the reward. -/
def fromTokensOpt (evalP : Key → List ℚ × ℚ) : Cache → Key → Cache :=
  cacheStep (fun a => ⟨some (evalP a).1, some (evalP a).2, 1⟩)

/-- `from_tokens(a, optimize=False)`: a cache miss constructs the Program
unevaluated (no constants fitted, no reward). -/
def fromTokensUnopt : Cache → Key → Cache :=
  cacheStep (fun _ => ⟨none, none, 1⟩)

/-- Serial evaluation (`pool is None`): `programs = [from_tokens(a,
optimize=True) for a in actions]`. -/
def serialPrograms (evalP : Key → List ℚ × ℚ) (c : Cache) (as : List Key) :
    Cache :=
  as.foldl (fromTokensOpt evalP) c

/-- `programs_to_optimize = list(set([p for p in programs if "r" not in
p.__dict__]))`: the distinct programs of the batch with no computed reward
after the serial unoptimized pass. -/
def poolDispatch (c1 : Cache) (as : List Key) : List Key :=
  (as.filter (fun a => ((c1 a).bind (fun st => st.r)).isNone)).dedup

/-- `for (optimized_constants, r), p in zip(results, programs_to_optimize):
p.set_constants(optimized_constants); p.r = r` — apply each returned pair
onto the canonical cache entry, in submission order. -/
def applyResults : Cache → List ((List ℚ × ℚ) × Key) → Cache
  | c, [] => c
  | c, (res, k) :: rest =>
      let c2 := match c k with
        | some st =>
            c.update k { st with constants := some res.1, r := some res.2 }
        | none => c
      applyResults c2 rest

/-- Parallel evaluation (`pool` present, lines 271-281): construct all
programs unoptimized serially, dispatch the distinct unevaluated ones to
the pool (`results = pool.map(work, programs_to_optimize)`, each worker a
pure `(p.optimize(), p.r)`), then assign the results back in submission
order. -/
def parallelPrograms (evalP : Key → List ℚ × ℚ) (c : Cache) (as : List Key) :
    Cache :=
  let c1 := as.foldl fromTokensUnopt c
  let todo := poolDispatch c1 as
  let results := todo.map evalP
  applyResults c1 (results.zip todo)

/-- The evaluation state of each batch row: row `i` reads the canonical
cache entry of its key. -/
def rowStates (c : Cache) (as : List Key) :
    List (Option (List ℚ) × Option ℚ × ℕ) :=
  as.map (fun a => match c a with
    | some st => (st.constants, st.r, st.count)
    | none => (none, none, 0))

/-- Merged cache entry after a batch that resampled a key `n` times. -/
def mergeEntry (dflt : PState) : Option PState → ℕ → PState
  | some st, n => { st with count := st.count + n }
  | none, n => { dflt with count := n }

theorem cacheStep_eq (create : Key → PState)
    (hcr : ∀ k, (create k).count = 1) (c : Cache) (k : Key) :
    cacheStep create c k = c.update k (mergeEntry (create k) (c k) 1) := by
  cases hck : c k with
  | some st => simp [cacheStep, hck, mergeEntry]
  | none =>
    simp only [cacheStep, hck, mergeEntry]
    have h1 := hcr k
    cases hc : create k with
    | mk a b cnt =>
      rw [hc] at h1
      simp at h1
      subst h1
      rfl

theorem mergeEntry_succ (d : PState) (o : Option PState) (n : ℕ) :
    mergeEntry d (some (mergeEntry d o 1)) n = mergeEntry d o (n + 1) := by
  cases o <;> simp [mergeEntry] <;> omega

theorem cacheFold_char (create : Key → PState)
    (hcr : ∀ k, (create k).count = 1) (as : List Key) :
    ∀ (c : Cache) (k : Key),
      as.foldl (cacheStep create) c k =
        if k ∈ as then some (mergeEntry (create k) (c k) (as.count k))
        else c k := by
  induction as with
  | nil => intro c k; simp
  | cons a t ih =>
    intro c k
    rw [List.foldl_cons, ih (cacheStep create c a) k,
      cacheStep_eq create hcr c a]
    by_cases hka : k = a
    · subst hka
      have hupd : (Cache.update c k (mergeEntry (create k) (c k) 1)) k =
          some (mergeEntry (create k) (c k) 1) := by
        simp [Cache.update]
      by_cases hkt : k ∈ t
      · simp only [hupd, if_pos hkt, List.mem_cons, true_or, if_true,
          List.count_cons_self, mergeEntry_succ]
      · have hc0 : t.count k = 0 := List.count_eq_zero.mpr hkt
        simp [hupd, hkt, hc0, List.count_cons_self]
    · have hstep : (Cache.update c a (mergeEntry (create a) (c a) 1)) k =
          c k := by
        simp [Cache.update, hka]
      have hcnt : (a :: t).count k = t.count k := by
        simp [List.count_cons, hka]
      by_cases hkt : k ∈ t <;> simp [hstep, hkt, hcnt, List.mem_cons, hka]

theorem applyResults_char (evalP : Key → List ℚ × ℚ) :
    ∀ (todo : List Key), todo.Nodup →
      ∀ (c : Cache) (k : Key),
        applyResults c ((todo.map evalP).zip todo) k =
          if k ∈ todo then
            (match c k with
              | some st => some ⟨some (evalP k).1, some (evalP k).2, st.count⟩
              | none => c k)
          else c k := by
  intro todo
  induction todo with
  | nil => intro _ c k; simp [applyResults]
  | cons t rest ih =>
    intro hnd c k
    obtain ⟨htr, hndr⟩ := List.nodup_cons.mp hnd
    have hzip : ((t :: rest).map evalP).zip (t :: rest) =
        (evalP t, t) :: (rest.map evalP).zip rest := by
      simp [List.zip]
    rw [hzip]
    show applyResults _ _ k = _
    simp only [applyResults]
    by_cases hkt : k = t
    · subst hkt
      have hnr : k ∉ rest := htr
      cases hck : c k with
      | some st =>
          rw [ih hndr _ k, if_neg hnr]
          simp [hck, Cache.update, List.mem_cons]
      | none =>
          rw [ih hndr _ k, if_neg hnr]
          simp [hck, List.mem_cons]
    · have hc2 : (match c t with
          | some st =>
              c.update t ⟨some (evalP t).1, some (evalP t).2, st.count⟩
          | none => c) k = c k := by
        cases hct : c t <;> simp [Cache.update, hkt]
      rw [ih hndr _ k]
      by_cases hkr : k ∈ rest <;>
        simp [hkr, hc2, List.mem_cons, hkt]

/-- C2: parallel evaluation (construct unoptimized, dispatch only the
distinct programs with no computed reward, assign each returned
`(constants, reward)` pair back onto the canonical program in submission
order) leaves every batch row with exactly the same constants, reward and
resample count as serial evaluation (`pool is None`, `optimize=True` at
construction); and no program whose reward is already cached is ever
dispatched to a worker. Hypothesis: every pre-existing cache entry has its
reward computed (which every completed epoch guarantees). -/
theorem parallel_matches_serial (evalP : Key → List ℚ × ℚ) (c : Cache)
    (as : List Key) (hc : ∀ k st, c k = some st → st.r.isSome) :
    rowStates (parallelPrograms evalP c as) as =
      rowStates (serialPrograms evalP c as) as ∧
    ∀ k ∈ poolDispatch (as.foldl fromTokensUnopt c) as,
      (c k).bind (fun st => st.r) = none := by
  have hc1 : ∀ k, as.foldl fromTokensUnopt c k =
      if k ∈ as then
        some (mergeEntry ⟨none, none, 1⟩ (c k) (as.count k))
      else c k := by
    intro k
    show as.foldl (cacheStep fun _ => ⟨none, none, 1⟩) c k = _
    exact cacheFold_char _ (fun _ => rfl) as c k
  have hser : ∀ k, serialPrograms evalP c as k =
      if k ∈ as then
        some (mergeEntry ⟨some (evalP k).1, some (evalP k).2, 1⟩ (c k)
          (as.count k))
      else c k := by
    intro k
    show as.foldl (cacheStep fun a => ⟨some (evalP a).1, some (evalP a).2, 1⟩)
        c k = _
    exact cacheFold_char _ (fun _ => rfl) as c k
  have htodo : ∀ k, k ∈ poolDispatch (as.foldl fromTokensUnopt c) as ↔
      (k ∈ as ∧ (c k).bind (fun st => st.r) = none) := by
    intro k
    unfold poolDispatch
    rw [List.mem_dedup, List.mem_filter]
    constructor
    · rintro ⟨hmem, hcond⟩
      refine ⟨hmem, ?_⟩
      rw [hc1 k, if_pos hmem] at hcond
      cases hck : c k with
      | none => rfl
      | some st =>
          rw [hck] at hcond
          simpa [mergeEntry, Option.isNone_iff_eq_none] using hcond
    · rintro ⟨hmem, hcond⟩
      refine ⟨hmem, ?_⟩
      rw [hc1 k, if_pos hmem]
      cases hck : c k with
      | none => simp [mergeEntry]
      | some st =>
          rw [hck] at hcond
          simpa [mergeEntry, Option.isNone_iff_eq_none] using hcond
  have hnd : (poolDispatch (as.foldl fromTokensUnopt c) as).Nodup :=
    List.nodup_dedup _
  have hpoint : ∀ k, parallelPrograms evalP c as k =
      serialPrograms evalP c as k := by
    intro k
    have hpar : parallelPrograms evalP c as k =
        if k ∈ poolDispatch (as.foldl fromTokensUnopt c) as then
          (match (as.foldl fromTokensUnopt c) k with
            | some st =>
                some ⟨some (evalP k).1, some (evalP k).2, st.count⟩
            | none => (as.foldl fromTokensUnopt c) k)
        else (as.foldl fromTokensUnopt c) k :=
      applyResults_char evalP _ hnd (as.foldl fromTokensUnopt c) k
    rw [hpar, hser k]
    by_cases hkas : k ∈ as
    · cases hck : c k with
      | none =>
          have hmem : k ∈ poolDispatch (as.foldl fromTokensUnopt c) as :=
            (htodo k).mpr ⟨hkas, by simp [hck]⟩
          rw [if_pos hmem, if_pos hkas, hc1 k, if_pos hkas, hck]
          simp [mergeEntry]
      | some st =>
          obtain ⟨rv, hrv⟩ := Option.isSome_iff_exists.mp (hc k st hck)
          have hnmem : k ∉ poolDispatch (as.foldl fromTokensUnopt c) as := by
            intro hm
            have h2 := ((htodo k).mp hm).2
            rw [hck] at h2
            simp [hrv] at h2
          rw [if_neg hnmem, if_pos hkas, hc1 k, if_pos hkas, hck]
          simp [mergeEntry]
    · have hnmem : k ∉ poolDispatch (as.foldl fromTokensUnopt c) as := by
        intro hm
        exact hkas ((htodo k).mp hm).1
      rw [if_neg hnmem, if_neg hkas, hc1 k, if_neg hkas]
  constructor
  · unfold rowStates
    exact List.map_congr_left fun a _ => by rw [hpoint a]
  · intro k hk
    exact ((htodo k).mp hk).2

/-- Witness for C2: empty pre-batch cache, a three-row batch with a
duplicate key. -/
theorem parallel_matches_serial_witness :
    (∀ k st, (fun _ => none : Cache) k = some st → st.r.isSome) ∧
    rowStates
        (parallelPrograms (fun k => ([(k.sum : ℚ)], (k.length : ℚ)))
          (fun _ => none) [[0], [1], [0]])
        [[0], [1], [0]] =
      rowStates
        (serialPrograms (fun k => ([(k.sum : ℚ)], (k.length : ℚ)))
          (fun _ => none) [[0], [1], [0]])
        [[0], [1], [0]] :=
  ⟨fun _ _ h => (nomatch h),
    (parallel_matches_serial (fun k => ([(k.sum : ℚ)], (k.length : ℚ)))
      (fun _ => none) [[0], [1], [0]] (fun _ _ h => (nomatch h))).1⟩

/-!
The epoch loop of `src/dso/dso/train.py` `learn` (lines 237-482), embedded
for the termination and result-selection claims. External effects with no
bearing on control flow (logger, controller.train_step, priority-queue and
memory-queue pushes, prints) are elided; the embedding models the
`use_memory=False` quantile path. Each epoch's sampled batch enters as a
list of `Prog` rows.
-/

/-- The `learn` arguments the claims depend on. -/
structure Config where
  batch_size : ℕ
  n_samples : Option ℕ
  n_epochs_param : Option ℕ
  epsilon : Option ℚ
  eval_all : Bool
  early_stopping : Bool
  baseline : BaselineMode
  alpha : ℚ
  b_jumpstart : Bool
  deriving Repr

/-- Whether the risk-seeking filter runs: `epsilon is not None and
epsilon < 1.0` (line 326). -/
def riskSeeking (cfg : Config) : Bool :=
  match cfg.epsilon with
  | some e => decide (e < 1)
  | none => false

/-- `np.max` on a nonempty array. -/
def npMax : List ℚ → ℚ
  | [] => 0
  | x :: t => t.foldl max x

/-- `np.argmax`: index of the first occurrence of the maximum. -/
def argmaxIdx (xs : List ℚ) : ℕ :=
  xs.findIdx (fun x => decide (x = npMax xs))

/-- Placeholder row used only as the default of list lookups whose indices
are in range on every path the source can reach. -/
def junkProg : Prog := ⟨0, false, "", ""⟩

/-- Mutable loop state across epochs (lines 238-243 initialize it). -/
structure LoopState where
  nevals : ℕ
  p_final : Option Prog
  prev_r_best : Option ℚ
  r_best : Option ℚ
  p_r_best : Option Prog
  ewma : Option ℚ
  epochsRun : ℕ
  deriving Repr

/-- `r_best = max(r_max, r_best)` (line 320), with `none` standing for the
initial `-inf`. -/
def epochRBest (prev : Option ℚ) (data : List Prog) : Option ℚ :=
  let r_max := npMax (data.map (fun p => p.r))
  some (match prev with
    | none => r_max
    | some b => max r_max b)

/-- The epoch's training selection: risk-filtered programs and clipped
filtered rewards (lines 326-373; identity filter when risk-seeking is
off). -/
def epochTrainSel (cfg : Config) (data : List Prog) : List Prog × List ℚ :=
  let r := data.map (fun p => p.r)
  if riskSeeking cfg then
    let q := npQuantileHigher r (1 - cfg.epsilon.getD 0)
    let keep := r.map (fun x => decide (q ≤ x))
    (maskFilter keep data, (maskFilter keep r).map clipR)
  else (data, r.map clipR)

/-- Best-candidate update (lines 421-427): when the full-batch max beats the
previous best (`prev_r_best is None or r_max > prev_r_best`), the new best
is the filtered program at `np.argmax` of the filtered clipped rewards. -/
def epochBestUpdate (cfg : Config) (prev_r_best : Option ℚ)
    (old : Option Prog) (data : List Prog) : Option Prog :=
  let r_max := npMax (data.map (fun p => p.r))
  let newBest := match prev_r_best with
    | none => true
    | some pb => decide (pb < r_max)
  if newBest then
    some ((epochTrainSel cfg data).1.getD
      (argmaxIdx (epochTrainSel cfg data).2) junkProg)
  else old

/-- One epoch of the loop body, in source order: `nevals += batch_size`
(line 260); `eval_all` success scan and `p_final` update (298-302);
full-batch best tracking (319-320); risk filter and quantile (326-369);
clipping and baseline (372-388, can raise NameError); best-candidate update
(421-427); the three break checks (436-441, 450-451), the last of which
compares `nevals > n_samples` and raises TypeError when `n_samples` is
None. Returns the new state and whether the loop breaks. -/
def epochStep (cfg : Config) (st : LoopState) (data : List Prog) :
    Except RunError (LoopState × Bool) :=
  let nevals := st.nevals + cfg.batch_size
  let r := data.map (fun p => p.r)
  let anySucc := data.any (fun p => p.success)
  let p_final := if cfg.eval_all && anySucc then
      some (data.getD (data.findIdx (fun p => p.success)) junkProg)
    else st.p_final
  let r_best := epochRBest st.r_best data
  let quantile := if riskSeeking cfg then
      some (npQuantileHigher r (1 - cfg.epsilon.getD 0))
    else none
  let sel := epochTrainSel cfg data
  match computeBaseline cfg.baseline cfg.alpha st.ewma quantile sel.2 with
  | Except.error e => Except.error e
  | Except.ok bout =>
    let p_r_best := epochBestUpdate cfg st.prev_r_best st.p_r_best data
    let st2 : LoopState :=
      { nevals := nevals, p_final := p_final, prev_r_best := r_best,
        r_best := r_best, p_r_best := p_r_best, ewma := some bout.2,
        epochsRun := st.epochsRun + 1 }
    if cfg.eval_all && anySucc then Except.ok (st2, true)
    else if cfg.early_stopping && (p_r_best.getD junkProg).success then
      Except.ok (st2, true)
    else
      match cfg.n_samples with
      | none => Except.error RunError.typeError
      | some s => Except.ok (st2, decide (s < nevals))

/-- `for epoch in range(n_epochs)` with the `break`s of the body. -/
def learnLoop (cfg : Config) : LoopState → List (List Prog) →
    Except RunError LoopState
  | st, [] => Except.ok st
  | st, d :: rest =>
    match epochStep cfg st d with
    | Except.error e => Except.error e
    | Except.ok (st2, stop) =>
        if stop then Except.ok st2 else learnLoop cfg st2 rest

/-- Line 242: `n_epochs = n_epochs if n_epochs is not None else
int(n_samples / batch_size)`; with both None, `n_samples / batch_size`
raises TypeError. -/
def deriveEpochs (cfg : Config) : Except RunError ℕ :=
  match cfg.n_epochs_param with
  | some k => Except.ok k
  | none =>
    match cfg.n_samples with
    | some s => Except.ok (s / cfg.batch_size)
    | none => Except.error RunError.typeError

/-- What `learn` returns (lines 470-482): the number of epochs executed,
the two best-candidate trackers, and the result dict built from
`p = p_final if p_final is not None else p_r_best` — its reward `p.r`, the
`evaluate` bundle's success flag, and `repr(p.sympy_expr)` / `repr(p)`. -/
structure RunResult where
  epochsRun : ℕ
  p_final : Option Prog
  p_r_best : Option Prog
  res_r : ℚ
  res_success : Bool
  res_expression : String
  res_traversal : String
  deriving Repr

/-- The `learn` run: the line-164 assertion, the epoch-count derivation,
the epoch loop over the sampled batches, and the final result dict. -/
def learnRun (cfg : Config) (epochs : List (List Prog)) :
    Except RunError RunResult :=
  if cfg.n_samples.isSome && cfg.n_epochs_param.isSome then
    Except.error RunError.typeError
  else
    match deriveEpochs cfg with
    | Except.error e => Except.error e
    | Except.ok nE =>
      let st0 : LoopState :=
        { nevals := 0, p_final := none, prev_r_best := none, r_best := none,
          p_r_best := none,
          ewma := if cfg.b_jumpstart then none else some 0, epochsRun := 0 }
      match learnLoop cfg st0 (epochs.take nE) with
      | Except.error e => Except.error e
      | Except.ok stF =>
        let p := stF.p_final.getD (stF.p_r_best.getD junkProg)
        Except.ok
          { epochsRun := stF.epochsRun, p_final := stF.p_final,
            p_r_best := stF.p_r_best, res_r := p.r,
            res_success := p.success, res_expression := p.expr,
            res_traversal := p.trav }

/-- Declarative replay of the stopping decision: starting from `nevals`
samples drawn and best trackers `(pb, pp)`, the index of the first epoch of
`ds` at whose boundary a stopping criterion holds — (c) `eval_all` and a
success row in the full batch, (b) early stopping and the updated running
best is a success, or (a) the cumulative sample count exceeds the budget
`s`. -/
def firstStopAux (cfg : Config) (s : ℕ) :
    ℕ → Option ℚ → Option Prog → List (List Prog) → Option ℕ
  | _, _, _, [] => none
  | nevals, pb, pp, d :: rest =>
    let nevals2 := nevals + cfg.batch_size
    let pp2 := epochBestUpdate cfg pb pp d
    let stop := (cfg.eval_all && d.any (fun p => p.success)) ||
      (cfg.early_stopping && (pp2.getD junkProg).success) ||
      decide (s < nevals2)
    if stop then some 0
    else (firstStopAux cfg s nevals2 (epochRBest pb d) pp2 rest).map
      (fun j => j + 1)

/-- First stopping epoch of a run that starts fresh. -/
def firstStop (cfg : Config) (s : ℕ) (ds : List (List Prog)) : Option ℕ :=
  firstStopAux cfg s 0 none none ds

/-- The earliest successful row in batch order of the first epoch in which
any row reports success. -/
def firstSuccessRow : List (List Prog) → Option Prog
  | [] => none
  | d :: rest =>
    if d.any (fun p => p.success) then
      some (d.getD (d.findIdx (fun p => p.success)) junkProg)
    else firstSuccessRow rest

/-- Replay of the running best-candidate trackers over a run prefix. -/
def bestFold (cfg : Config) (init : Option ℚ × Option Prog)
    (ds : List (List Prog)) : Option ℚ × Option Prog :=
  ds.foldl (fun s d => (epochRBest s.1 d, epochBestUpdate cfg s.1 s.2 d))
    init

/-- Epochs executed once the first stopping epoch is known: one past the
stop, or the whole range when no criterion ever fires. -/
def stopsLen (o : Option ℕ) (full : ℕ) : ℕ :=
  match o with
  | some j => j + 1
  | none => full

/-- `p_final` is overwritten when a new value arrives, else kept. -/
def overrideOpt (new old : Option Prog) : Option Prog :=
  match new with
  | some p => some p
  | none => old

theorem computeBaseline_some_ok (mode : BaselineMode) (alpha : ℚ)
    (ew : Option ℚ) (q : ℚ) (rt : List ℚ) :
    ∃ out, computeBaseline mode alpha ew (some q) rt = Except.ok out := by
  cases mode <;> cases ew <;> exact ⟨_, rfl⟩

theorem epochStep_ok (cfg : Config) (st : LoopState) (d : List Prog) (s : ℕ)
    (hns : cfg.n_samples = some s) (hrs : riskSeeking cfg = true) :
    ∃ e2, epochStep cfg st d = Except.ok
      ({ nevals := st.nevals + cfg.batch_size,
         p_final := if cfg.eval_all && d.any (fun p => p.success) then
             some (d.getD (d.findIdx (fun p => p.success)) junkProg)
           else st.p_final,
         prev_r_best := epochRBest st.r_best d,
         r_best := epochRBest st.r_best d,
         p_r_best := epochBestUpdate cfg st.prev_r_best st.p_r_best d,
         ewma := some e2,
         epochsRun := st.epochsRun + 1 },
        (cfg.eval_all && d.any (fun p => p.success)) ||
          (cfg.early_stopping &&
            ((epochBestUpdate cfg st.prev_r_best st.p_r_best d).getD
              junkProg).success) ||
          decide (s < st.nevals + cfg.batch_size)) := by
  obtain ⟨bout, hb⟩ := computeBaseline_some_ok cfg.baseline cfg.alpha st.ewma
    (npQuantileHigher (d.map (fun p => p.r)) (1 - cfg.epsilon.getD 0))
    ((epochTrainSel cfg d).2)
  refine ⟨bout.2, ?_⟩
  unfold epochStep
  rw [hrs]
  simp only [if_true]
  rw [hb, hns]
  by_cases hA : (cfg.eval_all && d.any (fun p => p.success)) = true
  · simp [hA]
  · by_cases hB : (cfg.early_stopping &&
        ((epochBestUpdate cfg st.prev_r_best st.p_r_best d).getD
          junkProg).success) = true
    · simp [hA, hB]
    · simp [hA, hB]

theorem learnLoop_cons_ok (cfg : Config) (st : LoopState) (d : List Prog)
    (rest : List (List Prog)) (st2 : LoopState) (stop : Bool)
    (h : epochStep cfg st d = Except.ok (st2, stop)) :
    learnLoop cfg st (d :: rest) =
      if stop then Except.ok st2 else learnLoop cfg st2 rest := by
  show (match epochStep cfg st d with
    | Except.error e => Except.error e
    | Except.ok (st2, stop) =>
        if stop then Except.ok st2 else learnLoop cfg st2 rest) = _
  rw [h]

theorem learnLoop_char (cfg : Config) (s : ℕ) (hns : cfg.n_samples = some s)
    (hrs : riskSeeking cfg = true) :
    ∀ (ds : List (List Prog)) (st : LoopState),
      st.prev_r_best = st.r_best →
      ∃ stF, learnLoop cfg st ds = Except.ok stF ∧
        stF.epochsRun = st.epochsRun +
          stopsLen (firstStopAux cfg s st.nevals st.r_best st.p_r_best ds)
            ds.length ∧
        stF.p_final = overrideOpt
          (if cfg.eval_all then
            firstSuccessRow (ds.take (stopsLen (firstStopAux cfg s st.nevals
              st.r_best st.p_r_best ds) ds.length))
          else none) st.p_final ∧
        (stF.r_best, stF.p_r_best) = bestFold cfg (st.r_best, st.p_r_best)
          (ds.take (stopsLen (firstStopAux cfg s st.nevals st.r_best
            st.p_r_best ds) ds.length)) ∧
        stF.prev_r_best = stF.r_best := by
  intro ds
  induction ds with
  | nil =>
    intro st hpb
    refine ⟨st, rfl, ?_, ?_, ?_, hpb⟩
    · simp [firstStopAux, stopsLen]
    · cases cfg.eval_all <;> simp [firstStopAux, stopsLen, firstSuccessRow,
        overrideOpt]
    · simp [firstStopAux, stopsLen, bestFold]
  | cons d rest ih =>
    intro st hpb
    obtain ⟨e2, hstep⟩ := epochStep_ok cfg st d s hns hrs
    rw [hpb] at hstep
    rw [learnLoop_cons_ok cfg st d rest _ _ hstep]
    have hfs : firstStopAux cfg s st.nevals st.r_best st.p_r_best (d :: rest) =
        (if (cfg.eval_all && d.any (fun p => p.success)) ||
            (cfg.early_stopping &&
              ((epochBestUpdate cfg st.r_best st.p_r_best d).getD
                junkProg).success) ||
            decide (s < st.nevals + cfg.batch_size) then some 0
         else (firstStopAux cfg s (st.nevals + cfg.batch_size)
            (epochRBest st.r_best d)
            (epochBestUpdate cfg st.r_best st.p_r_best d) rest).map
          (fun j => j + 1)) := rfl
    by_cases hstop : ((cfg.eval_all && d.any (fun p => p.success)) ||
        (cfg.early_stopping &&
          ((epochBestUpdate cfg st.r_best st.p_r_best d).getD
            junkProg).success) ||
        decide (s < st.nevals + cfg.batch_size)) = true
    · rw [hstop, if_pos rfl]
      refine ⟨_, rfl, ?_, ?_, ?_, rfl⟩
      · rw [hfs, if_pos hstop]
        simp [stopsLen]
      · rw [hfs, if_pos hstop]
        simp only [stopsLen, List.take_cons, List.take_zero]
        cases hea : cfg.eval_all with
        | false => simp [overrideOpt]
        | true =>
          cases hany : d.any (fun p => p.success) with
          | false => simp [firstSuccessRow, hany, overrideOpt]
          | true => simp [firstSuccessRow, hany, overrideOpt]
      · rw [hfs, if_pos hstop]
        simp [stopsLen, bestFold]
    · rw [Bool.not_eq_true] at hstop
      rw [hstop]
      simp only [Bool.false_eq_true, if_false]
      obtain ⟨stF, hF, hep, hpf, hbf, hprev⟩ := ih
        { nevals := st.nevals + cfg.batch_size,
          p_final := if cfg.eval_all && d.any (fun p => p.success) then
              some (d.getD (d.findIdx (fun p => p.success)) junkProg)
            else st.p_final,
          prev_r_best := epochRBest st.r_best d,
          r_best := epochRBest st.r_best d,
          p_r_best := epochBestUpdate cfg st.r_best st.p_r_best d,
          ewma := some e2,
          epochsRun := st.epochsRun + 1 } rfl
      dsimp only at hep hpf hbf
      have hfs2 : firstStopAux cfg s st.nevals st.r_best st.p_r_best
          (d :: rest) =
          (firstStopAux cfg s (st.nevals + cfg.batch_size)
            (epochRBest st.r_best d)
            (epochBestUpdate cfg st.r_best st.p_r_best d) rest).map
          (fun j => j + 1) := by
        rw [hfs, hstop]
        simp only [Bool.false_eq_true, if_false]
      refine ⟨stF, hF, ?_, ?_, ?_, hprev⟩
      · rw [hep, hfs2]
        cases hX : firstStopAux cfg s (st.nevals + cfg.batch_size)
            (epochRBest st.r_best d)
            (epochBestUpdate cfg st.r_best st.p_r_best d) rest with
        | none => simp [stopsLen]; omega
        | some j => simp [stopsLen]; omega
      · rw [hpf, hfs2]
        have hA : (cfg.eval_all && d.any (fun p => p.success)) = false := by
          have h := hstop
          rw [Bool.or_eq_false_eq_eq_false_and_eq_false,
            Bool.or_eq_false_eq_eq_false_and_eq_false] at h
          exact h.1.1
        have htake : ∀ (P' : ℕ),
            (d :: rest).take (P' + 1) = d :: rest.take P' := by
          intro P'
          rfl
        cases hX : firstStopAux cfg s (st.nevals + cfg.batch_size)
            (epochRBest st.r_best d)
            (epochBestUpdate cfg st.r_best st.p_r_best d) rest with
        | none =>
          simp only [stopsLen, Option.map_none', List.length_cons, hA,
            Bool.false_eq_true, if_false]
          rw [htake rest.length]
          cases hea : cfg.eval_all with
          | false => simp
          | true =>
            have hany : d.any (fun p => p.success) = false := by
              rw [hea] at hA
              simpa using hA
            simp [firstSuccessRow, hany]
        | some j =>
          simp only [stopsLen, Option.map_some', hA, Bool.false_eq_true,
            if_false]
          rw [htake (j + 1)]
          cases hea : cfg.eval_all with
          | false => simp
          | true =>
            have hany : d.any (fun p => p.success) = false := by
              rw [hea] at hA
              simpa using hA
            simp [firstSuccessRow, hany]
      · rw [hbf, hfs2]
        cases hX : firstStopAux cfg s (st.nevals + cfg.batch_size)
            (epochRBest st.r_best d)
            (epochBestUpdate cfg st.r_best st.p_r_best d) rest with
        | none =>
          simp only [stopsLen, Option.map_none', List.length_cons]
          rfl
        | some j =>
          simp only [stopsLen, Option.map_some]
          rfl

theorem overrideOpt_none (x : Option Prog) : overrideOpt x none = x := by
  cases x <;> rfl

theorem firstStopAux_lt_length (cfg : Config) (s : ℕ) :
    ∀ (ds : List (List Prog)) (nevals : ℕ) (pb : Option ℚ)
      (pp : Option Prog) (j : ℕ),
      firstStopAux cfg s nevals pb pp ds = some j → j < ds.length := by
  intro ds
  induction ds with
  | nil => intro _ _ _ j h; simp [firstStopAux] at h
  | cons d rest ih =>
    intro nevals pb pp j h
    simp only [firstStopAux] at h
    split at h
    · simp only [Option.some_inj] at h
      simp only [List.length_cons]
      omega
    · obtain ⟨j2, hj2, hval⟩ := Option.map_eq_some'.mp h
      have := ih _ _ _ j2 hj2
      simp only [List.length_cons]
      omega

/-- C4: for a run configured by its sample budget (`n_epochs` not given, so
the epoch bound is `int(n_samples / batch_size)`) with risk-seeking enabled,
the loop raises nothing and terminates exactly at the first epoch boundary
at which a stopping criterion holds — (c) exhaustive evaluation sees a
success row in the full batch, (b) early stopping and the running best is a
success, or (a) the cumulative sample count exceeds `n_samples` — and
otherwise runs for all `n_samples / batch_size` epochs. -/
theorem loop_termination (cfg : Config) (epochs : List (List Prog)) (s : ℕ)
    (hns : cfg.n_samples = some s) (hnp : cfg.n_epochs_param = none)
    (hrs : riskSeeking cfg = true)
    (hlen : s / cfg.batch_size ≤ epochs.length) :
    ∃ res, learnRun cfg epochs = Except.ok res ∧
      res.epochsRun =
        stopsLen (firstStop cfg s (epochs.take (s / cfg.batch_size)))
          (s / cfg.batch_size) ∧
      ((∃ j, firstStop cfg s (epochs.take (s / cfg.batch_size)) = some j ∧
          j < s / cfg.batch_size ∧ res.epochsRun = j + 1) ∨
        (firstStop cfg s (epochs.take (s / cfg.batch_size)) = none ∧
          res.epochsRun = s / cfg.batch_size)) := by
  obtain ⟨stF, hF, hep, _, _, _⟩ := learnLoop_char cfg s hns hrs
    (epochs.take (s / cfg.batch_size))
    { nevals := 0, p_final := none, prev_r_best := none, r_best := none,
      p_r_best := none, ewma := if cfg.b_jumpstart then none else some 0,
      epochsRun := 0 } rfl
  have hrun : learnRun cfg epochs = Except.ok
      { epochsRun := stF.epochsRun, p_final := stF.p_final,
        p_r_best := stF.p_r_best,
        res_r := (stF.p_final.getD (stF.p_r_best.getD junkProg)).r,
        res_success := (stF.p_final.getD (stF.p_r_best.getD junkProg)).success,
        res_expression := (stF.p_final.getD (stF.p_r_best.getD junkProg)).expr,
        res_traversal := (stF.p_final.getD (stF.p_r_best.getD junkProg)).trav
        } := by
    unfold learnRun
    rw [hns, hnp]
    simp only [Option.isSome_some, Option.isSome_none, Bool.and_false,
      Bool.false_eq_true, if_false, deriveEpochs, hns, hnp]
    rw [hF]
  have htl : (epochs.take (s / cfg.batch_size)).length =
      s / cfg.batch_size := by
    rw [List.length_take]
    omega
  dsimp only at hep
  rw [Nat.zero_add] at hep
  refine ⟨_, hrun, ?_, ?_⟩
  · dsimp only
    rw [hep]
    simp only [firstStop, htl]
  · dsimp only
    cases hX : firstStopAux cfg s 0 none none
        (epochs.take (s / cfg.batch_size)) with
    | some j =>
      left
      have hlt := firstStopAux_lt_length cfg s _ _ _ _ _ hX
      rw [htl] at hlt
      refine ⟨j, by simp only [firstStop]; exact hX, hlt, ?_⟩
      rw [hep, hX]
      simp only [stopsLen]
    | none =>
      right
      refine ⟨by simp only [firstStop]; exact hX, ?_⟩
      rw [hep, hX]
      simp only [stopsLen, htl]

/-- Concrete configuration for the loop witnesses: batch size 1, sample
budget 2, risk-seeking at epsilon 1/2, no early stopping. -/
def cfgW : Config :=
  { batch_size := 1, n_samples := some 2, n_epochs_param := none,
    epsilon := some (1/2), eval_all := false, early_stopping := false,
    baseline := BaselineMode.ewma_R, alpha := 1, b_jumpstart := false }

/-- Two one-row epochs for the loop witnesses. -/
def epochsW : List (List Prog) :=
  [[⟨1, false, "x", "x"⟩], [⟨1, false, "x", "x"⟩]]

/-- Witness for C4 at the concrete two-epoch run. -/
theorem loop_termination_witness :
    riskSeeking cfgW = true ∧
    2 / cfgW.batch_size ≤ epochsW.length ∧
    (∃ res, learnRun cfgW epochsW = Except.ok res ∧
      res.epochsRun =
        stopsLen (firstStop cfgW 2 (epochsW.take (2 / cfgW.batch_size)))
          (2 / cfgW.batch_size) ∧
      ((∃ j, firstStop cfgW 2 (epochsW.take (2 / cfgW.batch_size)) = some j ∧
          j < 2 / cfgW.batch_size ∧ res.epochsRun = j + 1) ∨
        (firstStop cfgW 2 (epochsW.take (2 / cfgW.batch_size)) = none ∧
          res.epochsRun = 2 / cfgW.batch_size))) :=
  ⟨by norm_num [riskSeeking, cfgW], by norm_num [cfgW, epochsW],
    loop_termination cfgW epochsW 2 rfl rfl
      (by norm_num [riskSeeking, cfgW]) (by norm_num [cfgW, epochsW])⟩

/-- C8: the returned result describes `p_final` — under `eval_all` the
earliest successful row in batch order of the epoch where success first
appeared among the executed epochs — whenever it exists, and otherwise the
running best-by-reward program; the returned dict carries that program's
reward, its evaluate bundle's success flag, and its expression and
traversal representations. -/
theorem final_result_selection (cfg : Config) (epochs : List (List Prog))
    (s : ℕ) (hns : cfg.n_samples = some s) (hnp : cfg.n_epochs_param = none)
    (hrs : riskSeeking cfg = true) :
    ∃ res, learnRun cfg epochs = Except.ok res ∧
      res.p_final = (if cfg.eval_all then
        firstSuccessRow
          ((epochs.take (s / cfg.batch_size)).take res.epochsRun)
        else none) ∧
      res.p_r_best = (bestFold cfg (none, none)
        ((epochs.take (s / cfg.batch_size)).take res.epochsRun)).2 ∧
      res.res_r = (res.p_final.getD (res.p_r_best.getD junkProg)).r ∧
      res.res_success =
        (res.p_final.getD (res.p_r_best.getD junkProg)).success ∧
      res.res_expression =
        (res.p_final.getD (res.p_r_best.getD junkProg)).expr ∧
      res.res_traversal =
        (res.p_final.getD (res.p_r_best.getD junkProg)).trav := by
  obtain ⟨stF, hF, hep, hpf, hbf, _⟩ := learnLoop_char cfg s hns hrs
    (epochs.take (s / cfg.batch_size))
    { nevals := 0, p_final := none, prev_r_best := none, r_best := none,
      p_r_best := none, ewma := if cfg.b_jumpstart then none else some 0,
      epochsRun := 0 } rfl
  have hrun : learnRun cfg epochs = Except.ok
      { epochsRun := stF.epochsRun, p_final := stF.p_final,
        p_r_best := stF.p_r_best,
        res_r := (stF.p_final.getD (stF.p_r_best.getD junkProg)).r,
        res_success := (stF.p_final.getD (stF.p_r_best.getD junkProg)).success,
        res_expression := (stF.p_final.getD (stF.p_r_best.getD junkProg)).expr,
        res_traversal := (stF.p_final.getD (stF.p_r_best.getD junkProg)).trav
        } := by
    unfold learnRun
    rw [hns, hnp]
    simp only [Option.isSome_some, Option.isSome_none, Bool.and_false,
      Bool.false_eq_true, if_false, deriveEpochs, hns, hnp]
    rw [hF]
  dsimp only at hep hpf hbf
  rw [Nat.zero_add] at hep
  rw [overrideOpt_none] at hpf
  refine ⟨_, hrun, ?_, ?_, rfl, rfl, rfl, rfl⟩
  · dsimp only
    rw [hep, hpf]
  · dsimp only
    rw [hep]
    exact congrArg Prod.snd hbf

/-- Witness for C8 at the concrete two-epoch run. -/
theorem final_result_selection_witness :
    riskSeeking cfgW = true ∧
    (∃ res, learnRun cfgW epochsW = Except.ok res ∧
      res.p_final = (if cfgW.eval_all then
        firstSuccessRow
          ((epochsW.take (2 / cfgW.batch_size)).take res.epochsRun)
        else none) ∧
      res.p_r_best = (bestFold cfgW (none, none)
        ((epochsW.take (2 / cfgW.batch_size)).take res.epochsRun)).2 ∧
      res.res_r = (res.p_final.getD (res.p_r_best.getD junkProg)).r ∧
      res.res_success =
        (res.p_final.getD (res.p_r_best.getD junkProg)).success ∧
      res.res_expression =
        (res.p_final.getD (res.p_r_best.getD junkProg)).expr ∧
      res.res_traversal =
        (res.p_final.getD (res.p_r_best.getD junkProg)).trav) :=
  ⟨by norm_num [riskSeeking, cfgW],
    final_result_selection cfgW epochsW 2 rfl rfl
      (by norm_num [riskSeeking, cfgW])⟩

theorem epochStep_typeError (cfg : Config) (st : LoopState) (d : List Prog)
    (hns : cfg.n_samples = none) (hrs : riskSeeking cfg = true)
    (hC : (cfg.eval_all && d.any (fun p => p.success)) = false)
    (hB : (cfg.early_stopping &&
      ((epochBestUpdate cfg st.prev_r_best st.p_r_best d).getD
        junkProg).success) = false) :
    epochStep cfg st d = Except.error RunError.typeError := by
  obtain ⟨bout, hb⟩ := computeBaseline_some_ok cfg.baseline cfg.alpha st.ewma
    (npQuantileHigher (d.map (fun p => p.r)) (1 - cfg.epsilon.getD 0))
    ((epochTrainSel cfg d).2)
  unfold epochStep
  rw [hrs]
  simp only [if_true]
  rw [hb, hC, hB, hns]
  simp

theorem learnLoop_cons_err (cfg : Config) (st : LoopState) (d : List Prog)
    (rest : List (List Prog)) (e : RunError)
    (h : epochStep cfg st d = Except.error e) :
    learnLoop cfg st (d :: rest) = Except.error e := by
  show (match epochStep cfg st d with
    | Except.error e => Except.error e
    | Except.ok (st2, stop) =>
        if stop then Except.ok st2 else learnLoop cfg st2 rest) = _
  rw [h]

/-- C10 (amended): in the dso `learn`, the budget check `nevals > n_samples`
runs unconditionally at the end of every epoch, so every run configured by
`n_epochs` (hence with `n_samples = None` per the INIT assertion) in which
neither success-based stopping criterion fires at the first epoch raises a
TypeError from comparing an int with None at the end of the first epoch,
instead of training for `n_epochs` epochs. -/
theorem nepochs_budget_typeError (cfg : Config) (k : ℕ) (d0 : List Prog)
    (rest : List (List Prog))
    (hns : cfg.n_samples = none) (hnp : cfg.n_epochs_param = some k)
    (hk : 1 ≤ k) (hrs : riskSeeking cfg = true)
    (hC : (cfg.eval_all && d0.any (fun p => p.success)) = false)
    (hB : (cfg.early_stopping &&
      ((epochBestUpdate cfg none none d0).getD junkProg).success) = false) :
    learnRun cfg (d0 :: rest) = Except.error RunError.typeError := by
  obtain ⟨k2, rfl⟩ : ∃ k2, k = k2 + 1 := ⟨k - 1, by omega⟩
  unfold learnRun
  rw [hns, hnp]
  simp only [Option.isSome_some, Option.isSome_none, Bool.false_and,
    Bool.false_eq_true, if_false, deriveEpochs, hnp, List.take_succ_cons]
  rw [learnLoop_cons_err _ _ _ _ _ (epochStep_typeError cfg _ d0 hns hrs hC
    hB)]

/-- Configuration of the amended-C10 witness: `n_epochs = 1`,
`n_samples = None`. -/
def cfgC10 : Config :=
  { batch_size := 1, n_samples := none, n_epochs_param := some 1,
    epsilon := some (1/2), eval_all := false, early_stopping := false,
    baseline := BaselineMode.ewma_R, alpha := 1, b_jumpstart := false }

/-- Witness for the amended C10: `n_epochs = 1`, one batch whose single row
is unsuccessful — the run ends in a TypeError at the first epoch
boundary. -/
theorem nepochs_budget_typeError_witness :
    cfgC10.n_samples = none ∧ (1 : ℕ) ≤ 1 ∧
    learnRun cfgC10 [[(⟨1, false, "x", "x"⟩ : Prog)]] =
      Except.error RunError.typeError :=
  ⟨rfl, by norm_num,
    nepochs_budget_typeError cfgC10 1 [⟨1, false, "x", "x"⟩] [] rfl rfl
      (by norm_num) (by norm_num [riskSeeking, cfgC10]) rfl rfl⟩

/-- Whether a run completed without raising. -/
def runOk : Except RunError RunResult → Bool
  | Except.ok _ => true
  | Except.error _ => false

/-- Counterexample to C10 as stated: a run configured by `n_epochs = 2`
(`n_samples = None`) in which the early-stopping criterion fires at the
first epoch completes without any TypeError. -/
theorem nepochs_run_no_typeError :
    runOk (learnRun
      { batch_size := 1, n_samples := none, n_epochs_param := some 2,
        epsilon := none, eval_all := false, early_stopping := true,
        baseline := BaselineMode.ewma_R, alpha := 1, b_jumpstart := false }
      [[(⟨1, true, "x", "x"⟩ : Prog)], [(⟨1, true, "x", "x"⟩ : Prog)]]) =
      true := by
  norm_num [learnRun, deriveEpochs, learnLoop, epochStep, riskSeeking,
    computeBaseline, epochTrainSel, epochRBest, epochBestUpdate, npMean,
    npMax, argmaxIdx, clipR, junkProg, runOk, List.findIdx,
    List.findIdx.go, List.getD]

end DSO
